import Mathlib

/-!
Verification of the PaddlePaddle CINN operator-fusion pattern core
(`paddle/cinn/operator_fusion/pattern_fuser.h`) and of the phi CPU
`unpool` / `unpool3d` kernels, by a shallow embedding in Lean.

Operations of the source operator graph are opaque; they are modelled as
numeric identifiers, and all graph / shape-inference queries the fusion
core performs on them (`GetOpPatternKind`, `GetDimExprsFromValue`,
`GetReduceAxisIdx`, `FindUserOp`, `FindDownstreamOps`) are supplied by an
explicit environment `OpEnv`.  Symbolic dimension expressions (`DimExpr`)
are modelled as natural numbers; the fusion core only ever compares them
for equality and against the constant 1.
-/

namespace PaddleFusion

/-- An operation of the source graph, identified by a numeric id. -/
abbrev Op := Nat

/-- `hlir::framework::OpPatternKind`. -/
inductive OpPatternKind where
  | kElementWise
  | kBroadcast
  | kInjective
  | kReduction
  | kOutFusible
  | kNonFusible
deriving DecidableEq, Repr

/-- The external collaborators (operator graph and shape inference) that the
fusion core queries.  `uses a b = true` means operation `a` reads the first
result of operation `b`; `downstream b` lists the operations consuming any
result of `b` (`FindDownstreamOps`); `resultDims` / `operandDims` give the
symbolic sizes of an op's first result / first operand; `reduceAxes` lists
the reduced axis indices of a reduction op (`GetReduceAxisIdx`). -/
structure OpEnv where
  kind : Op → OpPatternKind
  resultDims : Op → List Nat
  operandDims : Op → List Nat
  reduceAxes : Op → List Nat
  uses : Op → Op → Bool
  downstream : Op → List Op

/-- Modelled from the spec: a fusion-tracker instruction; `init op` is the
`InitPatternInstr` referencing `op`, `ret` the `ReturnInstr`. -/
inductive FusionInstr where
  | init (op : Op)
  | ret
deriving DecidableEq, Repr

/-- Modelled from the spec: the append-only construction log.  A tracker
node holds the (shared, never copied) parent trackers it was combined from
plus its own appended instructions. -/
inductive FusionTracker where
  | node (parents : List FusionTracker) (instrs : List FusionInstr)

/-- The instructions appended to this tracker node itself. -/
def FusionTracker.instrs : FusionTracker → List FusionInstr
  | .node _ is => is

/-- A fresh, empty tracker (`std::make_shared<FusionTracker>()`). -/
def FusionTracker.empty : FusionTracker := .node [] []

/-- `tracker_->append(instr)`. -/
def FusionTracker.append : FusionTracker → FusionInstr → FusionTracker
  | .node ps is, i => .node ps (is ++ [i])

/-- `std::make_shared<FusionTracker>(first.tracker_, second.tracker_)`:
a fresh node referencing both parents. -/
def FusionTracker.combine (a b : FusionTracker) : FusionTracker := .node [a, b] []

/-- Modelled from the spec (§3, `pattern.h` is not part of the sources):
single reduction op unit — owning op list plus tracker. -/
structure ReducePattern where
  ops : List Op
  tracker : FusionTracker

/-- Modelled from the spec: the pattern's single reduction op; concretely
the last op of the owning op list. -/
def ReducePattern.GetReduceOp (r : ReducePattern) : Op := r.ops.getLastD 0

/-- Modelled from the spec: elementwise/broadcast/injective chain with one
sink op. -/
structure TrivialPattern where
  ops : List Op
  sink_op : Op
  tracker : FusionTracker

/-- Modelled from the spec: an op that cannot be fused. -/
structure UnsupportPattern where
  ops : List Op
  tracker : FusionTracker

/-- Modelled from the spec: a pattern whose loop dimensions are explicitly
given (already resolved). -/
structure ItersPermutationPattern where
  ops : List Op
  tracker : FusionTracker
  loop : List Nat
  is_reduce : List Bool

/-- Modelled from the spec: a reduction op plus a tree of upstream
`ReduceTreePattern`s feeding it: children list, root `ReducePattern`,
tracker. -/
inductive ReduceTreePattern where
  | mk (childs : List ReduceTreePattern) (root : ReducePattern) (tracker : FusionTracker)

def ReduceTreePattern.childs : ReduceTreePattern → List ReduceTreePattern
  | .mk cs _ _ => cs

/-- `GetRootPattern()`. -/
def ReduceTreePattern.root : ReduceTreePattern → ReducePattern
  | .mk _ r _ => r

def ReduceTreePattern.tracker : ReduceTreePattern → FusionTracker
  | .mk _ _ t => t

/-- Modelled from the spec: a `ReduceTreePattern` whose root feeds a
`TrivialPattern` sink, with an optional "fake reduce axis" index set. -/
structure ReduceTreePlusTrivialPattern where
  tree : ReduceTreePattern
  sink_trivial : TrivialPattern
  fake_reduce_iter_idx : List Nat
  tracker : FusionTracker

/-- `StmtPattern`: the closed tagged union over the pattern variants.  A
horizontal-fusion member pairs a sub-pattern with its padding-position
list (`HorizontalFusionPattern::PaddingStmtPattern`). -/
inductive StmtPattern where
  | trivial : TrivialPattern → StmtPattern
  | reduce : ReducePattern → StmtPattern
  | unsupport : UnsupportPattern → StmtPattern
  | reduceTree : ReduceTreePattern → StmtPattern
  | reduceTreePlusTrivial : ReduceTreePlusTrivialPattern → StmtPattern
  | horizontal (padding_patterns : List (StmtPattern × List Nat)) (tracker : FusionTracker)
  | itersPermutation : ItersPermutationPattern → StmtPattern

/-- The tracker of a pattern (field `tracker_` of every variant). -/
def StmtPattern.trackerOf : StmtPattern → FusionTracker
  | .trivial p => p.tracker
  | .reduce p => p.tracker
  | .unsupport p => p.tracker
  | .reduceTree t => t.tracker
  | .reduceTreePlusTrivial p => p.tracker
  | .horizontal _ tk => tk
  | .itersPermutation p => p.tracker

/-- `ConvertToStmtPattern` (pattern_fuser.h): classify one operation into
its initial pattern variant and log an init instruction on the fresh
tracker. -/
def ConvertToStmtPattern (env : OpEnv) (op : Op) : StmtPattern :=
  let kind := env.kind op
  if kind = OpPatternKind.kReduction then
    .reduce ⟨[op], FusionTracker.empty.append (.init op)⟩
  else if kind = OpPatternKind.kElementWise ∨ kind = OpPatternKind.kBroadcast ∨
      kind = OpPatternKind.kInjective then
    .trivial ⟨[op], op, FusionTracker.empty.append (.init op)⟩
  else
    .unsupport ⟨[op], FusionTracker.empty.append (.init op)⟩

/-! ### Utility functions (`utils.h` is not part of the sources) -/

/-- Modelled from the spec: `UniqueConcatVector` — the deduplicated union of
two op lists, stable order, first-seen preserved. -/
def UniqueConcatVector (a b : List Op) : List Op :=
  (a ++ b).foldl (fun acc x => if x ∈ acc then acc else acc ++ [x]) []

/-- Modelled from the spec: `AnyFirstInSecond` — whether any element of the
first list occurs in the second. -/
def AnyFirstInSecond (a b : List Op) : Bool := a.any fun x => b.contains x

/-- `FindUserOp(ops, value)`: the ops of the list that read the given
producer's first result. -/
def FindUserOp (env : OpEnv) (ops : List Op) (producer : Op) : List Op :=
  ops.filter fun o => env.uses o producer

/-- Modelled from the spec: `GatherVector(v, idxs) = [v[i] for i in idxs]`
(an out-of-range read is undefined in the C++; modelled as 0). -/
def GatherVector (v : List Nat) (idxs : List Nat) : List Nat :=
  idxs.map fun i => v.getD i 0

/-- Modelled from the spec: `ExcludeIndex(n, idx)` — the indices `< n` not
contained in `idx`. -/
def ExcludeIndex (n : Nat) (idx : List Nat) : List Nat :=
  (List.range n).filter fun i => ¬ i ∈ idx

/-! ### Ops of a pattern -/

mutual
/-- Modelled from the spec: the op set owned by a reduce tree — every
node's op list (children first, then the node's root). -/
def ReduceTreePattern.opsOf : ReduceTreePattern → List Op
  | .mk cs root _ => ReduceTreePattern.opsOfList cs ++ root.ops

def ReduceTreePattern.opsOfList : List ReduceTreePattern → List Op
  | [] => []
  | c :: cs => ReduceTreePattern.opsOf c ++ ReduceTreePattern.opsOfList cs
end

mutual
/-- The number of tree nodes of a reduce tree. -/
def ReduceTreePattern.size : ReduceTreePattern → Nat
  | .mk cs _ _ => 1 + ReduceTreePattern.sizeList cs

def ReduceTreePattern.sizeList : List ReduceTreePattern → Nat
  | [] => 0
  | c :: cs => ReduceTreePattern.size c + ReduceTreePattern.sizeList cs
end

mutual
/-- Modelled from the spec: `GetOpsInPattern` — the op list owned by each
variant (a horizontal pattern owns its members' ops). -/
def GetOpsInPattern : StmtPattern → List Op
  | .trivial p => p.ops
  | .reduce p => p.ops
  | .unsupport p => p.ops
  | .reduceTree t => t.opsOf
  | .reduceTreePlusTrivial p => p.tree.opsOf ++ p.sink_trivial.ops
  | .horizontal pats _ => GetOpsInPatternList pats
  | .itersPermutation p => p.ops

def GetOpsInPatternList : List (StmtPattern × List Nat) → List Op
  | [] => []
  | (p, _) :: ps => GetOpsInPattern p ++ GetOpsInPatternList ps
end

/-! ### Merge implementations (`MergePatternImpl` overloads) -/

/-- `MergePatternImpl(TrivialPattern, TrivialPattern)`: deduplicated op
union, second's sink, combined tracker. -/
def MergePatternImplTT (first second : TrivialPattern) : TrivialPattern :=
  ⟨UniqueConcatVector first.ops second.ops, second.sink_op,
    first.tracker.combine second.tracker⟩

/-- `MergePatternImpl(TrivialPattern, ReducePattern)`: deduplicated op
union, combined tracker. -/
def MergePatternImplTR (first : TrivialPattern) (second : ReducePattern) : ReducePattern :=
  ⟨UniqueConcatVector first.ops second.ops, first.tracker.combine second.tracker⟩

/-- `MergePatternImpl(TrivialPattern, ItersPermutationPattern)`. -/
def MergePatternImplTI (first : TrivialPattern) (second : ItersPermutationPattern) :
    ItersPermutationPattern :=
  ⟨UniqueConcatVector first.ops second.ops, first.tracker.combine second.tracker,
    second.loop, second.is_reduce⟩

mutual
/-- `MergePatternImpl(TrivialPattern, ReduceTreePattern)` together with
`FusePatternIfConnected`: fuse the trivial into each child and into the
root exactly when the trivial's sink has a downstream op inside the target
sub-pattern's op set. -/
def MergePatternImplTRT (env : OpEnv) (first : TrivialPattern) :
    ReduceTreePattern → ReduceTreePattern
  | .mk cs root tk =>
    let connect_ops := env.downstream first.sink_op
    .mk (FuseChildsIfConnected env first connect_ops cs)
      (if AnyFirstInSecond connect_ops root.ops then MergePatternImplTR first root else root)
      (first.tracker.combine tk)

def FuseChildsIfConnected (env : OpEnv) (first : TrivialPattern) (connect_ops : List Op) :
    List ReduceTreePattern → List ReduceTreePattern
  | [] => []
  | c :: cs =>
    (if AnyFirstInSecond connect_ops c.opsOf then MergePatternImplTRT env first c else c) ::
      FuseChildsIfConnected env first connect_ops cs
end

/-- `MergePatternImpl(TrivialPattern, ReduceTreePlusTrivialPattern)`:
fuse-if-connected applied independently to the tree and the sink trivial;
`fake_reduce_iter_idx` preserved from the second operand. -/
def MergePatternImplTRTPT (env : OpEnv) (first : TrivialPattern)
    (second : ReduceTreePlusTrivialPattern) : ReduceTreePlusTrivialPattern :=
  let connect_ops := env.downstream first.sink_op
  { tree := if AnyFirstInSecond connect_ops second.tree.opsOf then
        MergePatternImplTRT env first second.tree
      else second.tree
    sink_trivial := if AnyFirstInSecond connect_ops second.sink_trivial.ops then
        MergePatternImplTT first second.sink_trivial
      else second.sink_trivial
    fake_reduce_iter_idx := second.fake_reduce_iter_idx
    tracker := first.tracker.combine second.tracker }

/-- The local lambda `is_direct_upstream` of `InsertUpstreamIntoTree`:
whether the downstream root pattern owns a user of the upstream root
reduction's result. -/
def isDirectUpstream (env : OpEnv) (up down : ReducePattern) : Bool :=
  ¬ (FindUserOp env down.ops up.GetReduceOp).isEmpty

mutual
/-- `InsertUpstreamIntoTree`: if the current node's root is a direct
consumer, attach the upstream tree as a new child and stop; otherwise
recurse into every child, accumulating insertion counts.  Returns the
updated tree together with the insertion count (the C++ mutates the tree
in place and returns the count). -/
def InsertUpstreamIntoTree (env : OpEnv) (upstream : ReduceTreePattern) :
    ReduceTreePattern → ReduceTreePattern × Nat
  | .mk cs root tk =>
    if isDirectUpstream env upstream.root root then
      (.mk (cs ++ [upstream]) root tk, 1)
    else
      let rs := InsertUpstreamIntoList env upstream cs
      (.mk rs.1 root tk, rs.2)

def InsertUpstreamIntoList (env : OpEnv) (upstream : ReduceTreePattern) :
    List ReduceTreePattern → List ReduceTreePattern × Nat
  | [] => ([], 0)
  | c :: cs =>
    let rc := InsertUpstreamIntoTree env upstream c
    let rcs := InsertUpstreamIntoList env upstream cs
    (rc.1 :: rcs.1, rc.2 + rcs.2)
end

/-- `MergePatternImpl(ReduceTreePattern, ReduceTreePattern)`: copy the
downstream tree with a combined tracker, insert the upstream tree, and
enforce that exactly one insertion happened. -/
def MergePatternImplRR (env : OpEnv) (upstream downstream : ReduceTreePattern) :
    Except String StmtPattern :=
  let copied : ReduceTreePattern :=
    .mk downstream.childs downstream.root (upstream.tracker.combine downstream.tracker)
  let r := InsertUpstreamIntoTree env upstream copied
  if r.2 = 1 then .ok (.reduceTree r.1)
  else .error "Must insert only once"

/-- `MergePatternImpl(ReduceTreePattern, TrivialPattern)`: wrap into a
`ReduceTreePlusTrivialPattern` (fresh object, `fake_reduce_iter_idx`
default-empty). -/
def MergePatternImplRTT (first : ReduceTreePattern) (second : TrivialPattern) :
    ReduceTreePlusTrivialPattern :=
  ⟨first, second, [], first.tracker.combine second.tracker⟩

/-! ### Loop-framework extraction -/

/-- `MaybeLoopFramework`: an ordered list of symbolic dimension sizes plus
a same-length flag list marking the reduction dimensions. -/
structure MaybeLoopFramework where
  loop : List Nat
  is_reduce : List Bool
deriving DecidableEq, Repr

/-- `CreateIsReduceVector(nums_flatten, nums_reduce)`. -/
def CreateIsReduceVector (nums_flatten nums_reduce : Nat) : List Bool :=
  List.replicate nums_flatten false ++ List.replicate nums_reduce true

/-- `SqueezeLoopFramework`: drop every size-1 dimension, keeping the other
sizes and their reduction flags (the C++ reads `is_reduce[i]` for every
kept `i`; an out-of-range read is undefined, modelled as `false`). -/
def SqueezeLoopFramework (input : MaybeLoopFramework) : MaybeLoopFramework :=
  let idxs := (List.range input.loop.length).filter fun i => input.loop.getD i 0 ≠ 1
  ⟨idxs.map fun i => input.loop.getD i 0, idxs.map fun i => input.is_reduce.getD i false⟩

/-- `SplitReduceLoop`: partition `loop` into (non-reduce, reduce) entries,
walking the `is_reduce` flags (out-of-range reads of `loop` are undefined
in the C++, modelled as 0). -/
def SplitReduceLoop (loops : MaybeLoopFramework) : List Nat × List Nat :=
  (((List.range loops.is_reduce.length).filter fun i => !(loops.is_reduce.getD i false)).map
      (fun i => loops.loop.getD i 0),
    ((List.range loops.is_reduce.length).filter fun i => loops.is_reduce.getD i false).map
      fun i => loops.loop.getD i 0)

/-- The local lambda `get_reduce_loop` of `IsLoopFrameworkEqual`: the
subsequence of `loop` at the flagged-reduce positions. -/
def GetReduceLoopOf (loops : MaybeLoopFramework) : List Nat :=
  ((List.range loops.is_reduce.length).filter fun i => loops.is_reduce.getD i false).map
    fun i => loops.loop.getD i 0

/-- `LoopFrameworkVisitor::operator()(ReducePattern)`: flattened output
dims followed by the reduced input dims, the latter flagged as reduce. -/
def ReduceFramework (env : OpEnv) (p : ReducePattern) : MaybeLoopFramework :=
  let flatten_loops := env.resultDims p.GetReduceOp
  let reduce_loops := GatherVector (env.operandDims p.GetReduceOp) (env.reduceAxes p.GetReduceOp)
  ⟨flatten_loops ++ reduce_loops,
    CreateIsReduceVector flatten_loops.length reduce_loops.length⟩

/-- `LoopFrameworkVisitor::operator()(TrivialPattern)`: the sink op's
result dims, none flagged as reduce. -/
def TrivialFramework (env : OpEnv) (p : TrivialPattern) : MaybeLoopFramework :=
  let loop := env.resultDims p.sink_op
  ⟨loop, List.replicate loop.length false⟩

/-- `LoopFrameworkVisitor::operator()(ReduceTreePlusTrivialPattern)`: the
sink trivial's loop — with the `fake_reduce_iter_idx` positions removed
when that set is non-empty — followed by the tree root's reduce dims,
which are flagged as reduce. -/
def RTPTFramework (env : OpEnv) (p : ReduceTreePlusTrivialPattern) : MaybeLoopFramework :=
  let trivial_loop0 := (TrivialFramework env p.sink_trivial).loop
  let trivial_loop :=
    if p.fake_reduce_iter_idx.isEmpty then trivial_loop0
    else GatherVector trivial_loop0 (ExcludeIndex trivial_loop0.length p.fake_reduce_iter_idx)
  let reduce_loop := (SplitReduceLoop (ReduceFramework env p.tree.root)).2
  ⟨trivial_loop ++ reduce_loop,
    CreateIsReduceVector trivial_loop.length reduce_loop.length⟩

/-- Whether a pattern is a plain `ReducePattern`
(`std::holds_alternative<ReducePattern>`). -/
def IsReduceVariant : StmtPattern → Bool
  | .reduce _ => true
  | _ => false

/-- `LoopFrameworkVisitor::operator()(HorizontalFusionPattern)`'s padding
step: the base framework re-expanded to `base.loop.length + padding.length`
positions, with size-1 / non-reduce entries at the recorded padding
positions and the base entries in order elsewhere (out-of-range base reads
are undefined in the C++, modelled by the initialisation values 1 /
`false`). -/
def PadBaseFramework (base : MaybeLoopFramework) (padding : List Nat) : MaybeLoopFramework :=
  let n := base.loop.length + padding.length
  let r := (List.range n).foldl
    (fun (acc : (List Nat × List Bool) × Nat) i =>
      if padding.contains i then ((acc.1.1 ++ [1], acc.1.2 ++ [false]), acc.2)
      else
        ((acc.1.1 ++ [base.loop.getD acc.2 1], acc.1.2 ++ [base.is_reduce.getD acc.2 false]),
          acc.2 + 1))
    (([], []), 0)
  ⟨r.1.1, r.1.2⟩

mutual
/-- `GetLoopFramework`, dispatching `LoopFrameworkVisitor` over the
variants; fails (throws) on `UnsupportPattern`. -/
def GetLoopFramework (env : OpEnv) : StmtPattern → Except String MaybeLoopFramework
  | .reduce p => .ok (ReduceFramework env p)
  | .reduceTree t => .ok (ReduceFramework env t.root)
  | .trivial p => .ok (TrivialFramework env p)
  | .reduceTreePlusTrivial p => .ok (RTPTFramework env p)
  | .unsupport _ => .error "Unsupport for GetLoopRange."
  | .itersPermutation p => .ok ⟨p.loop, p.is_reduce⟩
  | .horizontal pats _ => HorizontalFramework env pats

/-- The `HorizontalFusionPattern` case of `GetLoopFramework`: the base
member is the first member holding a plain `ReducePattern`, else the last
member (`padding_patterns_.back()`; an empty member list is undefined in
the C++, modelled as an error); its framework is padded at its recorded
padding positions. -/
def HorizontalFramework (env : OpEnv) :
    List (StmtPattern × List Nat) → Except String MaybeLoopFramework
  | [] => .error "empty horizontal pattern"
  | (p, padding) :: ps =>
    if IsReduceVariant p then (GetLoopFramework env p).map (PadBaseFramework · padding)
    else
      match ps with
      | [] => (GetLoopFramework env p).map (PadBaseFramework · padding)
      | _ :: _ => HorizontalFramework env ps
end

/-- `IsLoopFrameworkEqual`: squeezed size sequences equal, and reduce
subsequences equal unless either is empty. -/
def IsLoopFrameworkEqual (env : OpEnv) (lhs rhs : StmtPattern) : Except String Bool := do
  let lhs_loops ← GetLoopFramework env lhs
  let rhs_loops ← GetLoopFramework env rhs
  let lhs_reduce_loop := GetReduceLoopOf lhs_loops
  let rhs_reduce_loop := GetReduceLoopOf rhs_loops
  let reduce_equal : Bool :=
    if lhs_reduce_loop.isEmpty || rhs_reduce_loop.isEmpty then true
    else lhs_reduce_loop == rhs_reduce_loop
  let loop_equal : Bool :=
    (SqueezeLoopFramework lhs_loops).loop == (SqueezeLoopFramework rhs_loops).loop
  pure (loop_equal && reduce_equal)

/-! ### Padding alignment -/

/-- The local recursive lambda `RecursivePadding` of `GetPaddingVector`,
two-pointer greedy alignment; the pointers are represented by the
remaining suffixes of the two sequences, `padding_size` by `k`.  The two
`PADDLE_ENFORCE` messages are copied verbatim from the source (the second
one is a copy-paste of the first there). -/
def RecursivePadding : List Nat → List Nat → Nat → Except String (List Nat × List Nat)
  | [], [], _ => .ok ([], [])
  | [], s :: ss, k =>
    if s = 1 then (RecursivePadding [] ss (k + 1)).map fun r => (k :: r.1, r.2)
    else .error "second[ps] must be '1' to padding."
  | f :: fs, [], k =>
    if f = 1 then (RecursivePadding fs [] (k + 1)).map fun r => (r.1, k :: r.2)
    else .error "second[ps] must be '1' to padding."
  | f :: fs, s :: ss, k =>
    if s = f then RecursivePadding fs ss (k + 1)
    else if s = 1 then (RecursivePadding (f :: fs) ss (k + 1)).map fun r => (k :: r.1, r.2)
    else if f = 1 then (RecursivePadding fs (s :: ss) (k + 1)).map fun r => (r.1, k :: r.2)
    else .error "Padding Error."
termination_by a b _ => a.length + b.length

/-- `GetPaddingVector(first, second)`: run the two-pointer alignment from
the start, producing the padding-position lists `(padding_f, padding_s)`. -/
def GetPaddingVector (first second : List Nat) : Except String (List Nat × List Nat) :=
  RecursivePadding first second 0

/-- `MergePatternImpl(HorizontalFusionPattern, HorizontalFusionPattern)`:
align the two loop frameworks and wrap both sides as padded members of a
new horizontal pattern. -/
def MergePatternImplHH (env : OpEnv) (lp : List (StmtPattern × List Nat)) (lt : FusionTracker)
    (rp : List (StmtPattern × List Nat)) (rt : FusionTracker) : Except String StmtPattern := do
  let fl ← GetLoopFramework env (.horizontal lp lt)
  let sl ← GetLoopFramework env (.horizontal rp rt)
  let fs ← GetPaddingVector fl.loop sl.loop
  pure (.horizontal [(.horizontal lp lt, fs.1), (.horizontal rp rt, fs.2)] (lt.combine rt))

/-! ### The merge dispatch -/

/-- `MergePattern`: double dispatch over the variant pair; every pairing
outside the eight supported ones fails fatally. -/
def MergePattern (env : OpEnv) : StmtPattern → StmtPattern → Except String StmtPattern
  | .reduceTree lhs, .reduceTree rhs => MergePatternImplRR env lhs rhs
  | .reduceTree lhs, .trivial rhs => .ok (.reduceTreePlusTrivial (MergePatternImplRTT lhs rhs))
  | .trivial lhs, .reduce rhs => .ok (.reduce (MergePatternImplTR lhs rhs))
  | .trivial lhs, .trivial rhs => .ok (.trivial (MergePatternImplTT lhs rhs))
  | .trivial lhs, .reduceTree rhs => .ok (.reduceTree (MergePatternImplTRT env lhs rhs))
  | .trivial lhs, .reduceTreePlusTrivial rhs =>
    .ok (.reduceTreePlusTrivial (MergePatternImplTRTPT env lhs rhs))
  | .trivial lhs, .itersPermutation rhs => .ok (.itersPermutation (MergePatternImplTI lhs rhs))
  | .horizontal lp lt, .horizontal rp rt => MergePatternImplHH env lp lt rp rt
  | _, _ => .error "Not support for MergePatternImpl"

/-- The variant tag of a pattern. -/
inductive PatternTag where
  | trivial
  | reduce
  | unsupport
  | reduceTree
  | reduceTreePlusTrivial
  | horizontal
  | itersPermutation
deriving DecidableEq, Repr

def StmtPattern.tag : StmtPattern → PatternTag
  | .trivial _ => .trivial
  | .reduce _ => .reduce
  | .unsupport _ => .unsupport
  | .reduceTree _ => .reduceTree
  | .reduceTreePlusTrivial _ => .reduceTreePlusTrivial
  | .horizontal _ _ => .horizontal
  | .itersPermutation _ => .itersPermutation

/-- The eight variant pairings `MergePattern` handles. -/
def SupportedMergeTag : PatternTag → PatternTag → Bool
  | .trivial, .trivial => true
  | .trivial, .reduce => true
  | .trivial, .reduceTree => true
  | .trivial, .reduceTreePlusTrivial => true
  | .trivial, .itersPermutation => true
  | .reduceTree, .reduceTree => true
  | .reduceTree, .trivial => true
  | .horizontal, .horizontal => true
  | _, _ => false

/-! ### Statements modelled from the spec's words, for refinement claims -/

mutual
/-- Modelled from the spec: the children-first reduce-tree insertion the
spec describes — at every node of the downstream tree first recursively
search that node's children, then, only if the current node's root
reduction is a direct consumer of the upstream root's result, attach the
upstream tree at that node.  To be compared with the source's
`InsertUpstreamIntoTree`. -/
def SpecInsertUpstreamIntoTree (env : OpEnv) (upstream : ReduceTreePattern) :
    ReduceTreePattern → ReduceTreePattern × Nat
  | .mk cs root tk =>
    let rs := SpecInsertUpstreamIntoList env upstream cs
    if isDirectUpstream env upstream.root root then
      (.mk (rs.1 ++ [upstream]) root tk, rs.2 + 1)
    else (.mk rs.1 root tk, rs.2)

def SpecInsertUpstreamIntoList (env : OpEnv) (upstream : ReduceTreePattern) :
    List ReduceTreePattern → List ReduceTreePattern × Nat
  | [] => ([], 0)
  | c :: cs =>
    let rc := SpecInsertUpstreamIntoTree env upstream c
    let rcs := SpecInsertUpstreamIntoList env upstream cs
    (rc.1 :: rcs.1, rc.2 + rcs.2)
end

/-- Modelled from the spec: the `ReduceTreePlusTrivialPattern` loop
framework the claim describes — when `fake_reduce_iter_idx` is empty, the
sink trivial's loop followed by the tree root's trailing reduction dims
flagged as reduction; when non-empty, the trivial's dims at those indices
relocated to the tail and treated as reduction-like.  To be compared with
the source's `RTPTFramework`. -/
def SpecRTPTFramework (env : OpEnv) (p : ReduceTreePlusTrivialPattern) : MaybeLoopFramework :=
  let trivial_loop := (TrivialFramework env p.sink_trivial).loop
  if p.fake_reduce_iter_idx.isEmpty then
    let reduce_loop := (SplitReduceLoop (ReduceFramework env p.tree.root)).2
    ⟨trivial_loop ++ reduce_loop,
      CreateIsReduceVector trivial_loop.length reduce_loop.length⟩
  else
    let non_fake := GatherVector trivial_loop
      (ExcludeIndex trivial_loop.length p.fake_reduce_iter_idx)
    let fake := GatherVector trivial_loop p.fake_reduce_iter_idx
    ⟨non_fake ++ fake, CreateIsReduceVector non_fake.length fake.length⟩

/-! ### Concrete instances used by witnesses and counterexamples -/

/-- A concrete environment used by witnesses: op 0 is a reduction op, op 1
is elementwise, every other op is non-fusible. -/
def envW : OpEnv where
  kind := fun o => if o = 0 then .kReduction else if o = 1 then .kElementWise else .kNonFusible
  resultDims := fun _ => []
  operandDims := fun _ => []
  reduceAxes := fun _ => []
  uses := fun _ _ => false
  downstream := fun _ => []

/-- A concrete graph for the reduce-tree insertion counterexamples: ops 7
and 9 both read the result of the reduction op 3. -/
def envT : OpEnv where
  kind := fun _ => .kReduction
  resultDims := fun _ => []
  operandDims := fun _ => []
  reduceAxes := fun _ => []
  uses := fun a b => (a == 7 || a == 9) && b == 3
  downstream := fun _ => []

/-- An upstream reduce tree with two nodes: root reduction op 3, one child
whose root is op 5. -/
def upT : ReduceTreePattern :=
  .mk [.mk [] ⟨[5], .empty⟩ .empty] ⟨[3], .empty⟩ .empty

/-- A single-node downstream tree whose root op 7 consumes op 3's result. -/
def downT : ReduceTreePattern := .mk [] ⟨[7], .empty⟩ .empty

/-- A single-node upstream tree with root reduction op 3. -/
def upT1 : ReduceTreePattern := .mk [] ⟨[3], .empty⟩ .empty

/-- A downstream tree whose root op 7 and whose child's root op 9 both
consume op 3's result. -/
def downT2 : ReduceTreePattern :=
  .mk [.mk [] ⟨[9], .empty⟩ .empty] ⟨[7], .empty⟩ .empty

/-- A concrete graph for the associativity counterexample: the trivial op
0 feeds op 2 (the reduction), the trivial op 1 feeds only op 5 (outside
every pattern involved). -/
def envC4 : OpEnv where
  kind := fun o => if o = 2 then .kReduction else .kElementWise
  resultDims := fun _ => []
  operandDims := fun _ => []
  reduceAxes := fun _ => []
  uses := fun _ _ => false
  downstream := fun o => if o = 0 then [2] else if o = 1 then [5] else []

def pA : StmtPattern := .trivial ⟨[0], 0, .empty⟩

def pB : StmtPattern := .trivial ⟨[1], 1, .empty⟩

def pC : StmtPattern := .reduceTree (.mk [] ⟨[2], .empty⟩ .empty)

/-- A concrete environment for the loop-framework claims: op 1's result is
`[2,1,3]`, op 2's result is `[2,3]`; op 4 is a reduction with result
`[4]`, operand `[4,5]` and reduce axis 1; op 6's result is `[4,7]`. -/
def envL : OpEnv where
  kind := fun _ => .kElementWise
  resultDims := fun o =>
    if o = 1 then [2, 1, 3] else if o = 2 then [2, 3]
    else if o = 4 then [4] else if o = 6 then [4, 7] else []
  operandDims := fun o => if o = 4 then [4, 5] else []
  reduceAxes := fun o => if o = 4 then [1] else []
  uses := fun _ _ => false
  downstream := fun _ => []

/-- A `ReduceTreePlusTrivialPattern` with a non-empty fake-reduce index
set whose trivial dim at the fake index (7) differs from the tree root's
reduce dim (5). -/
def pRTPT : ReduceTreePlusTrivialPattern :=
  ⟨.mk [] ⟨[4], .empty⟩ .empty, ⟨[6], 6, .empty⟩, [1], .empty⟩

/-- The same pattern with trivial sink op 8 whose dim at the fake index
equals the tree root's reduce dim. -/
def pRTPTeq : ReduceTreePlusTrivialPattern :=
  ⟨.mk [] ⟨[4], .empty⟩ .empty, ⟨[8], 8, .empty⟩, [1], .empty⟩

/-- An environment equal to `envL` except that op 8's result is `[4,5]`
(its fake dim equals the reduce dim 5). -/
def envL8 : OpEnv where
  kind := fun _ => .kElementWise
  resultDims := fun o =>
    if o = 8 then [4, 5] else if o = 4 then [4] else []
  operandDims := fun o => if o = 4 then [4, 5] else []
  reduceAxes := fun o => if o = 4 then [1] else []
  uses := fun _ _ => false
  downstream := fun _ => []

end PaddleFusion

namespace PhiUnpool

/-!
Shallow embedding of the phi CPU `Unpool` / `Unpool3d` kernels
(`paddle/phi/kernels/cpu/unpool_kernel.cc`).  Tensors are modelled as
total maps from flat offsets to values; elements are `Int` (the kernels
are element-type generic).  The three nested loops visit the `(b, c, i)`
triples in row-major order; the data pointers advance by `input_feasize`
(resp. `output_feasize`) per channel, so the flat input/indices offset of
a visit is `(b * C + c) * input_feasize + i` and the output base of a
channel is `(b * C + c) * output_feasize`.  The `PADDLE_ENFORCE_LT` check
compares the (signed) index value against `output_feasize` only from
above, in source order, so the kernel stops at the first out-of-range
element it reaches.
-/

/-- The `(b, c, i)` loop triples in visit order. -/
def positions (batch_size output_channels input_feasize : Nat) : List (Nat × Nat × Nat) :=
  (List.range batch_size).flatMap fun b =>
    (List.range output_channels).flatMap fun c =>
      (List.range input_feasize).map fun i => (b, c, i)

/-- The flat offset into the input / indices data of a visit. -/
def flatPos (output_channels input_feasize : Nat) (t : Nat × Nat × Nat) : Nat :=
  (t.1 * output_channels + t.2.1) * input_feasize + t.2.2

/-- The flat output offset written by a visit: the channel's output base
plus the (signed) index value read at the visit. -/
def targetPos (output_channels input_feasize output_feasize : Nat) (indices : Nat → Int)
    (t : Nat × Nat × Nat) : Int :=
  ((t.1 * output_channels + t.2.1) * output_feasize : Nat) +
    indices (flatPos output_channels input_feasize t)

/-- One unchecked write: `output_data[index] = input_data[i]`. -/
def unpoolWrite (output_channels input_feasize output_feasize : Nat)
    (indices input : Nat → Int) (out : Int → Int) (t : Nat × Nat × Nat) : Int → Int :=
  fun j =>
    if j = targetPos output_channels input_feasize output_feasize indices t then
      input (flatPos output_channels input_feasize t)
    else out j

/-- One loop-body step: enforce `index < output_feasize`, then write. -/
def unpoolStep (msg : String) (output_channels input_feasize output_feasize : Nat)
    (indices input : Nat → Int) (out : Int → Int) (t : Nat × Nat × Nat) :
    Except String (Int → Int) :=
  if indices (flatPos output_channels input_feasize t) < (output_feasize : Int) then
    .ok (unpoolWrite output_channels input_feasize output_feasize indices input out t)
  else .error msg

/-- The loop nest shared by `Unpool` and `Unpool3d`: zero-initialise the
output, then visit every `(b, c, i)` in order. -/
def UnpoolCore (msg : String) (batch_size output_channels input_feasize output_feasize : Nat)
    (indices input : Nat → Int) : Except String (Int → Int) :=
  (positions batch_size output_channels input_feasize).foldlM
    (unpoolStep msg output_channels input_feasize output_feasize indices input)
    fun _ => 0

/-- The unchecked scatter over the zero-initialised output. -/
def UnpoolScatter (batch_size output_channels input_feasize output_feasize : Nat)
    (indices input : Nat → Int) : Int → Int :=
  (positions batch_size output_channels input_feasize).foldl
    (unpoolWrite output_channels input_feasize output_feasize indices input)
    fun _ => 0

/-- `Unpool`: 2-D case, feature sizes `input_height * input_width` and
`output_height * output_width`. -/
def Unpool (batch_size output_channels input_height input_width output_height output_width : Nat)
    (indices input : Nat → Int) : Except String (Int → Int) :=
  UnpoolCore
    "InvalidArgument: index should less than output tensor height * output tensor width"
    batch_size output_channels (input_height * input_width) (output_height * output_width)
    indices input

/-- `Unpool3d`: 3-D case, feature sizes `input_depth * input_height *
input_width` and `output_depth * output_height * output_width`. -/
def Unpool3d (batch_size output_channels input_depth input_height input_width
    output_depth output_height output_width : Nat) (indices input : Nat → Int) :
    Except String (Int → Int) :=
  UnpoolCore
    "InvalidArgument: index should less than output tensor depth * output tensor height * output tensor width"
    batch_size output_channels (input_depth * input_height * input_width)
    (output_depth * output_height * output_width) indices input

/-- `phi::DataType` (the members relevant to the dispatch). -/
inductive DataType where
  | BOOL
  | INT8
  | INT16
  | INT32
  | INT64
  | FLOAT32
  | FLOAT64
deriving DecidableEq, Repr

/-- The index element type a kernel instantiates. -/
inductive IndexKind where
  | int32
  | int64
deriving DecidableEq, Repr

/-- `UnpoolKernel`'s index-type dispatch: `INT32` selects the `int`
instantiation, every other dtype the `int64_t` one. -/
def UnpoolKernelIndexKind (indices_type : DataType) : IndexKind :=
  if indices_type = DataType.INT32 then .int32 else .int64

/-- `Unpool3dKernel`'s index-type dispatch, identical to `UnpoolKernel`'s. -/
def Unpool3dKernelIndexKind (indices_type : DataType) : IndexKind :=
  if indices_type = DataType.INT32 then .int32 else .int64

end PhiUnpool

namespace PaddleFusion

/-! ### Theorems -/

/-- Claim C1: `ConvertToStmtPattern` maps a reduction-kind op to a
`ReducePattern` with op list `[op]`, an elementwise/broadcast/injective op
to a `TrivialPattern` with op list `[op]` and sink `op`, and any other op
to an `UnsupportPattern` with op list `[op]`; it never fails, and in every
case the freshly created tracker's first instruction is an
`InitPatternInstr` referencing `op`. -/
theorem convertToStmtPattern_classification (env : OpEnv) (op : Op) :
    (env.kind op = OpPatternKind.kReduction →
      ∃ tk, ConvertToStmtPattern env op = .reduce ⟨[op], tk⟩ ∧
        tk.instrs.head? = some (.init op)) ∧
    ((env.kind op = OpPatternKind.kElementWise ∨ env.kind op = OpPatternKind.kBroadcast ∨
        env.kind op = OpPatternKind.kInjective) →
      ∃ tk, ConvertToStmtPattern env op = .trivial ⟨[op], op, tk⟩ ∧
        tk.instrs.head? = some (.init op)) ∧
    ((env.kind op ≠ OpPatternKind.kReduction ∧ env.kind op ≠ OpPatternKind.kElementWise ∧
        env.kind op ≠ OpPatternKind.kBroadcast ∧ env.kind op ≠ OpPatternKind.kInjective) →
      ∃ tk, ConvertToStmtPattern env op = .unsupport ⟨[op], tk⟩ ∧
        tk.instrs.head? = some (.init op)) := by
  refine ⟨fun h => ⟨FusionTracker.empty.append (.init op), ?_, rfl⟩,
    fun h => ⟨FusionTracker.empty.append (.init op), ?_, rfl⟩,
    fun h => ⟨FusionTracker.empty.append (.init op), ?_, rfl⟩⟩
  · simp [ConvertToStmtPattern, h]
  · rcases h with h | h | h <;> simp [ConvertToStmtPattern, h]
  · obtain ⟨h1, h2, h3, h4⟩ := h
    simp [ConvertToStmtPattern, h1, h2, h3, h4]

/-- Witness for C1 at concrete inputs: op 0 (reduction), op 1
(elementwise) and op 5 (non-fusible) in `envW`. -/
theorem convertToStmtPattern_classification_witness :
    (∃ tk, ConvertToStmtPattern envW 0 = .reduce ⟨[0], tk⟩ ∧
      tk.instrs.head? = some (.init 0)) ∧
    (∃ tk, ConvertToStmtPattern envW 1 = .trivial ⟨[1], 1, tk⟩ ∧
      tk.instrs.head? = some (.init 1)) ∧
    (∃ tk, ConvertToStmtPattern envW 5 = .unsupport ⟨[5], tk⟩ ∧
      tk.instrs.head? = some (.init 5)) :=
  ⟨(convertToStmtPattern_classification envW 0).1 rfl,
   (convertToStmtPattern_classification envW 1).2.1 (Or.inl rfl),
   (convertToStmtPattern_classification envW 5).2.2
     ⟨by decide, by decide, by decide, by decide⟩⟩

/-- Claim C5: `GetPaddingVector` is the two-pointer greedy alignment: the
two quoted examples hold, equal current entries advance both pointers
without recording padding, an exhausted side forces the other side's
remaining entries to be 1 (padding recorded for the exhausted side, fatal
otherwise), and unequal entries with neither side 1 are fatal. -/
theorem getPaddingVector_greedy :
    GetPaddingVector [2, 3] [2, 1, 3] = .ok ([1], []) ∧
    GetPaddingVector [1, 5] [5] = .ok ([], [0]) ∧
    (∀ f s fs ss k, s = f →
      RecursivePadding (f :: fs) (s :: ss) k = RecursivePadding fs ss (k + 1)) ∧
    (∀ ss k, RecursivePadding [] (1 :: ss) k =
      (RecursivePadding [] ss (k + 1)).map fun r => (k :: r.1, r.2)) ∧
    (∀ s ss k, s ≠ 1 →
      RecursivePadding [] (s :: ss) k = .error "second[ps] must be '1' to padding.") ∧
    (∀ fs k, RecursivePadding (1 :: fs) [] k =
      (RecursivePadding fs [] (k + 1)).map fun r => (r.1, k :: r.2)) ∧
    (∀ f fs k, f ≠ 1 →
      RecursivePadding (f :: fs) [] k = .error "second[ps] must be '1' to padding.") ∧
    (∀ f s fs ss k, s ≠ f → s ≠ 1 → f ≠ 1 →
      RecursivePadding (f :: fs) (s :: ss) k = .error "Padding Error.") := by
  refine ⟨?_, ?_, ?_, ?_, ?_, ?_, ?_, ?_⟩
  · simp [GetPaddingVector, RecursivePadding, Except.map]
  · simp [GetPaddingVector, RecursivePadding, Except.map]
  · intro f s fs ss k h
    simp [RecursivePadding, h]
  · intro ss k
    simp [RecursivePadding]
  · intro s ss k h
    simp [RecursivePadding, h]
  · intro fs k
    simp [RecursivePadding]
  · intro f fs k h
    simp [RecursivePadding, h]
  · intro f s fs ss k h1 h2 h3
    simp [RecursivePadding, h1, h2, h3]

/-- Witness for C5 at concrete inputs, one per hypothesis-bearing case. -/
theorem getPaddingVector_greedy_witness :
    RecursivePadding [2] [2] 0 = RecursivePadding [] [] 1 ∧
    RecursivePadding [] [3] 0 = .error "second[ps] must be '1' to padding." ∧
    RecursivePadding [3] [] 0 = .error "second[ps] must be '1' to padding." ∧
    RecursivePadding [2] [3] 0 = .error "Padding Error." :=
  ⟨getPaddingVector_greedy.2.2.1 2 2 [] [] 0 rfl,
   getPaddingVector_greedy.2.2.2.2.1 3 [] 0 (by decide),
   getPaddingVector_greedy.2.2.2.2.2.2.1 3 [] 0 (by decide),
   getPaddingVector_greedy.2.2.2.2.2.2.2 2 3 [] [] 0 (by decide) (by decide) (by decide)⟩

/-- Claim C8: every ordered variant pair outside the eight supported
combinations makes `MergePattern` fail fatally with the unsupported-pair
error, producing no pattern. -/
theorem mergePattern_unsupported_pairs (env : OpEnv) (a b : StmtPattern)
    (h : SupportedMergeTag a.tag b.tag = false) :
    MergePattern env a b = .error "Not support for MergePatternImpl" := by
  cases a <;> cases b <;> first
    | rfl
    | exact absurd h (by simp [StmtPattern.tag, SupportedMergeTag])

/-- Witness for C8: a plain `ReducePattern` as first argument is an
unsupported pair. -/
theorem mergePattern_unsupported_pairs_witness :
    MergePattern envW (.reduce ⟨[0], FusionTracker.empty⟩) (.reduce ⟨[0], FusionTracker.empty⟩) =
      .error "Not support for MergePatternImpl" :=
  mergePattern_unsupported_pairs envW _ _ (by decide)

/-- The node count of a concatenation of child lists. -/
theorem sizeList_append (a b : List ReduceTreePattern) :
    ReduceTreePattern.sizeList (a ++ b) =
      ReduceTreePattern.sizeList a + ReduceTreePattern.sizeList b := by
  induction a with
  | nil => simp [ReduceTreePattern.sizeList]
  | cons c cs ih => simp [ReduceTreePattern.sizeList, ih]; omega

/-- Each insertion performed by `InsertUpstreamIntoTree` adds one whole
copy of the upstream tree: the result's node count is the input's plus
`insert_count * upstream.size`. -/
theorem insertUpstreamIntoTree_size (env : OpEnv) (up t : ReduceTreePattern) :
    (InsertUpstreamIntoTree env up t).1.size =
      t.size + (InsertUpstreamIntoTree env up t).2 * up.size := by
  refine InsertUpstreamIntoTree.induct env up
    (fun t => (InsertUpstreamIntoTree env up t).1.size =
      t.size + (InsertUpstreamIntoTree env up t).2 * up.size)
    (fun cs => ReduceTreePattern.sizeList (InsertUpstreamIntoList env up cs).1 =
      ReduceTreePattern.sizeList cs + (InsertUpstreamIntoList env up cs).2 * up.size)
    ?_ ?_ ?_ ?_ t
  · intro cs root tk h
    simp [InsertUpstreamIntoTree, h, ReduceTreePattern.size, sizeList_append,
      ReduceTreePattern.sizeList]
    omega
  · intro cs root tk h ih
    rw [Bool.not_eq_true] at h
    simp [InsertUpstreamIntoTree, h, ReduceTreePattern.size, ih]
    omega
  · simp [InsertUpstreamIntoList, ReduceTreePattern.sizeList]
  · intro c cs ihc ihcs
    simp [InsertUpstreamIntoList, ReduceTreePattern.sizeList, ihc, ihcs, Nat.add_mul]
    omega

/-- Claim C2 (amended): the reduce-tree × reduce-tree merge succeeds if
and only if the recursive insertion search counts exactly one attachment
point, in which case the result is the (tracker-combined copy of the)
downstream tree with the upstream tree inserted there; with any other
count it fails fatally, producing no pattern.  On success the total node
count grows by exactly the upstream tree's node count (in general, by
`insert_count * upstream.size`). -/
theorem mergePatternRR_insertion (env : OpEnv) (up down : ReduceTreePattern) :
    (MergePatternImplRR env up down =
        .ok (.reduceTree (InsertUpstreamIntoTree env up
          (.mk down.childs down.root (up.tracker.combine down.tracker))).1) ↔
      (InsertUpstreamIntoTree env up
        (.mk down.childs down.root (up.tracker.combine down.tracker))).2 = 1) ∧
    (MergePatternImplRR env up down = .error "Must insert only once" ↔
      ¬ (InsertUpstreamIntoTree env up
        (.mk down.childs down.root (up.tracker.combine down.tracker))).2 = 1) ∧
    (InsertUpstreamIntoTree env up
        (.mk down.childs down.root (up.tracker.combine down.tracker))).1.size =
      down.size + (InsertUpstreamIntoTree env up
        (.mk down.childs down.root (up.tracker.combine down.tracker))).2 * up.size := by
  refine ⟨?_, ?_, ?_⟩
  · by_cases h : (InsertUpstreamIntoTree env up
        (.mk down.childs down.root (up.tracker.combine down.tracker))).2 = 1 <;>
      simp [MergePatternImplRR, h]
  · by_cases h : (InsertUpstreamIntoTree env up
        (.mk down.childs down.root (up.tracker.combine down.tracker))).2 = 1 <;>
      simp [MergePatternImplRR, h]
  · rw [insertUpstreamIntoTree_size]
    cases down with
    | mk cs root tk => simp [ReduceTreePattern.size, ReduceTreePattern.childs,
        ReduceTreePattern.root]

/-- Counterexample to Claim C2 as stated: merging the two-node upstream
tree `upT` into the single-node downstream tree `downT` succeeds (exactly
one insertion point), but the total node count grows from 1 to 3 — by the
upstream tree's node count, not by one. -/
theorem mergePatternRR_growth_cex :
    ∃ t : ReduceTreePattern, MergePatternImplRR envT upT downT = .ok (.reduceTree t) ∧
      t.size = 3 ∧ downT.size = 1 ∧ ¬ t.size = downT.size + 1 := by
  refine ⟨_, rfl, ?_, ?_, ?_⟩ <;> decide

/-- Claim C3 (amended): `InsertUpstreamIntoTree` checks the current node's
root first: if it is a direct consumer of the upstream root's result, the
upstream tree is attached there and that node's children are not searched
at all; otherwise every child is searched recursively, the insertion
counts being accumulated across all children without short-circuiting. -/
theorem insertUpstreamIntoTree_root_first (env : OpEnv) (up : ReduceTreePattern)
    (cs : List ReduceTreePattern) (root : ReducePattern) (tk : FusionTracker) :
    (isDirectUpstream env up.root root = true →
      InsertUpstreamIntoTree env up (.mk cs root tk) = (.mk (cs ++ [up]) root tk, 1)) ∧
    (isDirectUpstream env up.root root = false →
      InsertUpstreamIntoTree env up (.mk cs root tk) =
        (.mk (InsertUpstreamIntoList env up cs).1 root tk,
          (InsertUpstreamIntoList env up cs).2)) ∧
    (∀ c rest, InsertUpstreamIntoList env up (c :: rest) =
      ((InsertUpstreamIntoTree env up c).1 :: (InsertUpstreamIntoList env up rest).1,
        (InsertUpstreamIntoTree env up c).2 + (InsertUpstreamIntoList env up rest).2)) := by
  refine ⟨fun h => by simp [InsertUpstreamIntoTree, h],
    fun h => by simp [InsertUpstreamIntoTree, h],
    fun c rest => by simp [InsertUpstreamIntoList]⟩

/-- Witness for C3's amended claim: in `envT`, attaching at a consuming
root leaves the children untouched, and a non-consuming root recurses
into the (empty) child list. -/
theorem insertUpstreamIntoTree_root_first_witness :
    InsertUpstreamIntoTree envT upT1 (.mk downT2.childs ⟨[7], .empty⟩ .empty) =
      (.mk (downT2.childs ++ [upT1]) ⟨[7], .empty⟩ .empty, 1) ∧
    InsertUpstreamIntoTree envT upT1 (.mk [] ⟨[8], .empty⟩ .empty) =
      (.mk (InsertUpstreamIntoList envT upT1 []).1 ⟨[8], .empty⟩ .empty,
        (InsertUpstreamIntoList envT upT1 []).2) :=
  ⟨(insertUpstreamIntoTree_root_first envT upT1 downT2.childs ⟨[7], .empty⟩ .empty).1
      (by decide),
   (insertUpstreamIntoTree_root_first envT upT1 [] ⟨[8], .empty⟩ .empty).2.1 (by decide)⟩

/-- Counterexample to Claim C3 as stated: on `downT2` (root op 7 and child
root op 9 both consume the upstream result) the source traversal attaches
at the root without searching the children (count 1), whereas the
children-first traversal the claim describes would also attach inside the
child (count 2); the two traversals disagree. -/
theorem insertUpstreamIntoTree_children_first_cex :
    (InsertUpstreamIntoTree envT upT1 downT2).2 = 1 ∧
    (SpecInsertUpstreamIntoTree envT upT1 downT2).2 = 2 ∧
    ¬ InsertUpstreamIntoTree envT upT1 downT2 = SpecInsertUpstreamIntoTree envT upT1 downT2 := by
  refine ⟨by decide, by decide, fun h => ?_⟩
  have h2 : (1 : Nat) = 2 := by
    calc (1 : Nat) = (InsertUpstreamIntoTree envT upT1 downT2).2 := by decide
    _ = (SpecInsertUpstreamIntoTree envT upT1 downT2).2 := congrArg Prod.snd h
    _ = 2 := by decide
  exact absurd h2 (by decide)

/-- Membership in the first-seen dedup fold behind `UniqueConcatVector`. -/
theorem mem_dedup_foldl (l acc : List Op) (x : Op) :
    (x ∈ l.foldl (fun acc y => if y ∈ acc then acc else acc ++ [y]) acc) ↔
      x ∈ acc ∨ x ∈ l := by
  induction l generalizing acc with
  | nil => simp
  | cons y ys ih =>
    simp only [List.foldl_cons]
    rw [ih]
    by_cases h : y ∈ acc
    · simp only [if_pos h, List.mem_cons]
      constructor
      · rintro (hx | hx)
        · exact Or.inl hx
        · exact Or.inr (Or.inr hx)
      · rintro (hx | rfl | hx)
        · exact Or.inl hx
        · exact Or.inl h
        · exact Or.inr hx
    · simp only [if_neg h, List.mem_append, List.mem_singleton, List.mem_cons]
      tauto

/-- `UniqueConcatVector` is the union of its arguments, as a set. -/
theorem mem_UniqueConcatVector (a b : List Op) (x : Op) :
    x ∈ UniqueConcatVector a b ↔ x ∈ a ∨ x ∈ b := by
  unfold UniqueConcatVector
  rw [mem_dedup_foldl]
  simp

/-- Claim C4 (amended): op-set associativity holds for merge sequences in
which every constituent merge unions its operands' op lists, as every
Trivial×Trivial merge does: for trivial patterns the two merge orderings
always succeed and produce the same op set. -/
theorem mergePattern_trivial_assoc (env : OpEnv) (a b c : TrivialPattern) :
    ∃ ab bc, MergePattern env (.trivial a) (.trivial b) = .ok (.trivial ab) ∧
      MergePattern env (.trivial b) (.trivial c) = .ok (.trivial bc) ∧
      ∃ abc abc2, MergePattern env (.trivial ab) (.trivial c) = .ok (.trivial abc) ∧
        MergePattern env (.trivial a) (.trivial bc) = .ok (.trivial abc2) ∧
        ∀ x, x ∈ GetOpsInPattern (.trivial abc) ↔ x ∈ GetOpsInPattern (.trivial abc2) := by
  refine ⟨_, _, rfl, rfl, _, _, rfl, rfl, fun x => ?_⟩
  simp only [GetOpsInPattern, MergePatternImplTT, mem_UniqueConcatVector]
  tauto

/-- Counterexample to Claim C4 as stated: in `envC4`, both orderings of
merging the trivials `pA`, `pB` with the reduce tree `pC` are legal (all
merges succeed), yet merging `pB` into `pC` drops `pB`'s op (its sink is
not connected to the tree), so op 0 survives in one ordering's final op
set and not in the other's. -/
theorem mergePattern_assoc_cex :
    ∃ bc abc ab abc2,
      MergePattern envC4 pB pC = .ok bc ∧
      MergePattern envC4 pA bc = .ok abc ∧
      MergePattern envC4 pA pB = .ok ab ∧
      MergePattern envC4 ab pC = .ok abc2 ∧
      (0 : Op) ∈ GetOpsInPattern abc ∧ ¬ (0 : Op) ∈ GetOpsInPattern abc2 := by
  refine ⟨_, _, _, _, rfl, rfl, rfl, rfl, ?_, ?_⟩ <;> decide

/-- Claim C6: for two patterns whose loop frameworks are defined,
`IsLoopFrameworkEqual` returns true iff, after squeezing out all unit
dimensions from both frameworks, the remaining ordered size sequences are
identical, and additionally either side's reduction-dimension subsequence
is empty or the two reduction-dimension subsequences are identical in
order. -/
theorem isLoopFrameworkEqual_spec (env : OpEnv) (lhs rhs : StmtPattern)
    (L R : MaybeLoopFramework)
    (hL : GetLoopFramework env lhs = .ok L) (hR : GetLoopFramework env rhs = .ok R) :
    (IsLoopFrameworkEqual env lhs rhs = .ok true ↔
      (SqueezeLoopFramework L).loop = (SqueezeLoopFramework R).loop ∧
        (GetReduceLoopOf L = [] ∨ GetReduceLoopOf R = [] ∨
          GetReduceLoopOf L = GetReduceLoopOf R)) := by
  have hval : IsLoopFrameworkEqual env lhs rhs =
      .ok ((((SqueezeLoopFramework L).loop == (SqueezeLoopFramework R).loop)) &&
        (if (GetReduceLoopOf L).isEmpty || (GetReduceLoopOf R).isEmpty then true
         else GetReduceLoopOf L == GetReduceLoopOf R)) := by
    unfold IsLoopFrameworkEqual
    rw [hL, hR]
    rfl
  rw [hval]
  by_cases h1 : GetReduceLoopOf L = [] <;> by_cases h2 : GetReduceLoopOf R = [] <;>
    simp [h1, h2, List.isEmpty_iff]

/-- Witness for C6 in `envL`: op 1's trivial framework `[2,1,3]` and op
2's `[2,3]`, both reduce-free, squeeze to the same sequence. -/
theorem isLoopFrameworkEqual_spec_witness :
    IsLoopFrameworkEqual envL (.trivial ⟨[1], 1, .empty⟩) (.trivial ⟨[2], 2, .empty⟩) =
        .ok true ↔
      (SqueezeLoopFramework ⟨[2, 1, 3], [false, false, false]⟩).loop =
          (SqueezeLoopFramework ⟨[2, 3], [false, false]⟩).loop ∧
        (GetReduceLoopOf ⟨[2, 1, 3], [false, false, false]⟩ = [] ∨
          GetReduceLoopOf ⟨[2, 3], [false, false]⟩ = [] ∨
          GetReduceLoopOf ⟨[2, 1, 3], [false, false, false]⟩ =
            GetReduceLoopOf ⟨[2, 3], [false, false]⟩) :=
  isLoopFrameworkEqual_spec envL (.trivial ⟨[1], 1, .empty⟩) (.trivial ⟨[2], 2, .empty⟩)
    ⟨[2, 1, 3], [false, false, false]⟩ ⟨[2, 3], [false, false]⟩ rfl rfl

/-- Claim C7 (amended): on a `ReduceTreePlusTrivialPattern`,
`GetLoopFramework` returns `RTPTFramework`: with an empty fake set, the
sink trivial's loop followed by the tree root's trailing reduction dims
flagged as reduction (as the claim states); with a non-empty fake set,
the trivial's dims at the fake indices are dropped and the tree root's
reduction dims are appended at the tail flagged as reduction — which
coincides with the claim's "relocate the fake-index dims to the tail"
exactly when those dims equal the root's reduction dims. -/
theorem getLoopFramework_rtpt (env : OpEnv) (p : ReduceTreePlusTrivialPattern) :
    GetLoopFramework env (.reduceTreePlusTrivial p) = .ok (RTPTFramework env p) ∧
    (GatherVector (TrivialFramework env p.sink_trivial).loop p.fake_reduce_iter_idx =
        (SplitReduceLoop (ReduceFramework env p.tree.root)).2 →
      RTPTFramework env p = SpecRTPTFramework env p) := by
  refine ⟨rfl, fun h => ?_⟩
  unfold RTPTFramework SpecRTPTFramework
  by_cases he : p.fake_reduce_iter_idx.isEmpty <;> simp [he, h]

/-- Witness for C7's amended claim: for `pRTPTeq` in `envL8` the fake dim
equals the root's reduce dim (both 5), and the two formulas agree. -/
theorem getLoopFramework_rtpt_witness :
    RTPTFramework envL8 pRTPTeq = SpecRTPTFramework envL8 pRTPTeq :=
  (getLoopFramework_rtpt envL8 pRTPTeq).2 (by decide)

/-- Counterexample to Claim C7 as stated: for `pRTPT` in `envL` the
source appends the tree root's reduce dim 5 after dropping the fake dim,
while the claim's relocation formula keeps the trivial's fake dim 7; the
two results differ. -/
theorem getLoopFramework_rtpt_cex :
    GetLoopFramework envL (.reduceTreePlusTrivial pRTPT) = .ok ⟨[4, 5], [false, true]⟩ ∧
    SpecRTPTFramework envL pRTPT = ⟨[4, 7], [false, true]⟩ ∧
    ¬ GetLoopFramework envL (.reduceTreePlusTrivial pRTPT) =
        .ok (SpecRTPTFramework envL pRTPT) := by
  refine ⟨rfl, rfl, fun h => ?_⟩
  have h2 : (⟨[4, 5], [false, true]⟩ : MaybeLoopFramework) = ⟨[4, 7], [false, true]⟩ :=
    Except.ok.inj (by
      calc (Except.ok ⟨[4, 5], [false, true]⟩ : Except String MaybeLoopFramework)
          = GetLoopFramework envL (.reduceTreePlusTrivial pRTPT) := rfl
        _ = .ok (SpecRTPTFramework envL pRTPT) := h
        _ = .ok ⟨[4, 7], [false, true]⟩ := rfl)
  exact absurd h2 (by decide)

end PaddleFusion

namespace PhiUnpool

/-- Stepping over a good visit performs the unchecked write. -/
theorem unpoolStep_lt (msg : String) (C inF outF : Nat) (ind inp : Nat → Int)
    (out : Int → Int) (t : Nat × Nat × Nat) (h : ind (flatPos C inF t) < (outF : Int)) :
    unpoolStep msg C inF outF ind inp out t = .ok (unpoolWrite C inF outF ind inp out t) := by
  simp [unpoolStep, h]

/-- The loop fails with the kernel's message when the visits up to some
point are in bounds and that point's index is out of bounds. -/
theorem foldlM_unpool_error (msg : String) (C inF outF : Nat) (ind inp : Nat → Int) :
    ∀ (pre : List (Nat × Nat × Nat)) (t : Nat × Nat × Nat) (post : List (Nat × Nat × Nat))
      (out : Int → Int),
      (∀ u ∈ pre, ind (flatPos C inF u) < (outF : Int)) →
      (outF : Int) ≤ ind (flatPos C inF t) →
      (pre ++ t :: post).foldlM (unpoolStep msg C inF outF ind inp) out = .error msg := by
  intro pre
  induction pre with
  | nil =>
    intro t post out _ hbad
    have hn : ¬ ind (flatPos C inF t) < (outF : Int) := Int.not_lt.mpr hbad
    simp only [List.nil_append, List.foldlM_cons, unpoolStep, if_neg hn]
    rfl
  | cons u us ih =>
    intro t post out hpre hbad
    have hu : ind (flatPos C inF u) < (outF : Int) := hpre u (List.mem_cons_self u us)
    simp only [List.cons_append, List.foldlM_cons, unpoolStep_lt msg C inF outF ind inp out u hu]
    exact ih t post _ (fun v hv => hpre v (List.mem_cons_of_mem u hv)) hbad

/-- When every visit is in bounds the loop completes and equals the
unchecked scatter. -/
theorem foldlM_unpool_ok (msg : String) (C inF outF : Nat) (ind inp : Nat → Int) :
    ∀ (l : List (Nat × Nat × Nat)) (out : Int → Int),
      (∀ u ∈ l, ind (flatPos C inF u) < (outF : Int)) →
      l.foldlM (unpoolStep msg C inF outF ind inp) out =
        .ok (l.foldl (unpoolWrite C inF outF ind inp) out) := by
  intro l
  induction l with
  | nil => intro out _; rfl
  | cons u us ih =>
    intro out h
    have hu : ind (flatPos C inF u) < (outF : Int) := h u (List.mem_cons_self u us)
    simp only [List.foldlM_cons, List.foldl_cons, unpoolStep_lt msg C inF outF ind inp out u hu]
    exact ih _ fun v hv => h v (List.mem_cons_of_mem u hv)

/-- A position no visit targets keeps its previous value through the
scatter. -/
theorem foldl_unpoolWrite_untouched (C inF outF : Nat) (ind inp : Nat → Int) :
    ∀ (l : List (Nat × Nat × Nat)) (out : Int → Int) (j : Int),
      (∀ t ∈ l, targetPos C inF outF ind t ≠ j) →
      l.foldl (unpoolWrite C inF outF ind inp) out j = out j := by
  intro l
  induction l with
  | nil => intro out j _; rfl
  | cons u us ih =>
    intro out j h
    have hu : ¬ j = targetPos C inF outF ind u :=
      fun hj => (h u (List.mem_cons_self u us)) hj.symm
    rw [List.foldl_cons, ih _ j fun v hv => h v (List.mem_cons_of_mem u hv)]
    simp [unpoolWrite, if_neg hu]

/-- The scatter leaves, at a visit's target, that visit's input element,
provided no later visit targets the same position. -/
theorem foldl_unpoolWrite_last (C inF outF : Nat) (ind inp : Nat → Int)
    (pre : List (Nat × Nat × Nat)) (t : Nat × Nat × Nat) (post : List (Nat × Nat × Nat))
    (out : Int → Int)
    (h : ∀ u ∈ post, targetPos C inF outF ind u ≠ targetPos C inF outF ind t) :
    (pre ++ t :: post).foldl (unpoolWrite C inF outF ind inp) out
        (targetPos C inF outF ind t) = inp (flatPos C inF t) := by
  rw [List.foldl_append, List.foldl_cons,
    foldl_unpoolWrite_untouched C inF outF ind inp post _ _ h]
  simp [unpoolWrite]

/-- Claim C9: `Unpool` and `Unpool3d` run the shared loop nest on their
respective feature sizes; that loop fails fatally with the
invalid-argument error as soon as it reaches an indices element that is
at least the output feature size, and when every visited index is below
that bound it completes, writing each input element to the output
position named by its index over a zero-initialised output (later visits
of the same position overwrite earlier ones; untouched positions stay
zero). -/
theorem unpool_index_guard (msg : String) (B C inF outF : Nat) (ind inp : Nat → Int) :
    (∀ ih iw oh ow, Unpool B C ih iw oh ow ind inp =
      UnpoolCore
        "InvalidArgument: index should less than output tensor height * output tensor width"
        B C (ih * iw) (oh * ow) ind inp) ∧
    (∀ idp ih iw od oh ow, Unpool3d B C idp ih iw od oh ow ind inp =
      UnpoolCore
        "InvalidArgument: index should less than output tensor depth * output tensor height * output tensor width"
        B C (idp * ih * iw) (od * oh * ow) ind inp) ∧
    (∀ pre t post, positions B C inF = pre ++ t :: post →
      (∀ u ∈ pre, ind (flatPos C inF u) < (outF : Int)) →
      (outF : Int) ≤ ind (flatPos C inF t) →
      UnpoolCore msg B C inF outF ind inp = .error msg) ∧
    ((∀ t ∈ positions B C inF, ind (flatPos C inF t) < (outF : Int)) →
      UnpoolCore msg B C inF outF ind inp = .ok (UnpoolScatter B C inF outF ind inp)) ∧
    (∀ j, (∀ t ∈ positions B C inF, targetPos C inF outF ind t ≠ j) →
      UnpoolScatter B C inF outF ind inp j = 0) ∧
    (∀ pre t post, positions B C inF = pre ++ t :: post →
      (∀ u ∈ post, targetPos C inF outF ind u ≠ targetPos C inF outF ind t) →
      UnpoolScatter B C inF outF ind inp (targetPos C inF outF ind t) =
        inp (flatPos C inF t)) := by
  refine ⟨fun _ _ _ _ => rfl, fun _ _ _ _ _ _ => rfl, ?_, ?_, ?_, ?_⟩
  · intro pre t post hdec hpre hbad
    unfold UnpoolCore
    rw [hdec]
    exact foldlM_unpool_error msg C inF outF ind inp pre t post _ hpre hbad
  · intro h
    unfold UnpoolCore UnpoolScatter
    exact foldlM_unpool_ok msg C inF outF ind inp _ _ h
  · intro j h
    unfold UnpoolScatter
    exact foldl_unpoolWrite_untouched C inF outF ind inp _ _ j h
  · intro pre t post hdec h
    unfold UnpoolScatter
    rw [hdec]
    exact foldl_unpoolWrite_last C inF outF ind inp pre t post _ h

/-- Witness for C9 with `B = C = 1`, two input elements, output feature
size 2: an out-of-range second index aborts, in-range indices complete
with the expected writes. -/
theorem unpool_index_guard_witness :
    UnpoolCore "m" 1 1 2 2 (fun p => if p = 0 then 0 else 5) (fun _ => 9) = .error "m" ∧
    UnpoolCore "m" 1 1 2 2 (fun _ => 0) (fun p => (p : Int) + 4) =
      .ok (UnpoolScatter 1 1 2 2 (fun _ => 0) fun p => (p : Int) + 4) ∧
    UnpoolScatter 1 1 2 2 (fun _ => 0) (fun p => (p : Int) + 4) 1 = 0 ∧
    UnpoolScatter 1 1 2 2 (fun _ => 0) (fun p => (p : Int) + 4)
      (targetPos 1 2 2 (fun _ => 0) (0, 0, 1)) = (1 : Int) + 4 :=
  ⟨(unpool_index_guard "m" 1 1 2 2 (fun p => if p = 0 then 0 else 5) (fun _ => 9)).2.2.1
      [(0, 0, 0)] (0, 0, 1) [] (by decide) (by decide) (by decide),
   (unpool_index_guard "m" 1 1 2 2 (fun _ => 0) (fun p => (p : Int) + 4)).2.2.2.1
      (by decide),
   (unpool_index_guard "m" 1 1 2 2 (fun _ => 0) (fun p => (p : Int) + 4)).2.2.2.2.1
      1 (by decide),
   (unpool_index_guard "m" 1 1 2 2 (fun _ => 0) (fun p => (p : Int) + 4)).2.2.2.2.2
      [(0, 0, 0)] (0, 0, 1) [] (by decide) (by decide)⟩

/-- Claim C10: `UnpoolKernel` and `Unpool3dKernel` pick the index element
type solely by testing the indices dtype against `INT32`: `INT32` gives
the `int` instantiation and every other dtype the `int64_t` one; no dtype
is rejected at this layer. -/
theorem unpoolKernel_index_dispatch (dt : DataType) :
    (UnpoolKernelIndexKind dt = .int32 ↔ dt = DataType.INT32) ∧
    (UnpoolKernelIndexKind dt = .int64 ↔ dt ≠ DataType.INT32) ∧
    (Unpool3dKernelIndexKind dt = .int32 ↔ dt = DataType.INT32) ∧
    (Unpool3dKernelIndexKind dt = .int64 ↔ dt ≠ DataType.INT32) := by
  cases dt <;> decide

end PhiUnpool
